import Mathlib

/-!
Shallow embedding of the realtime client core of the collaborative
whiteboard (src/frontend/src/components/Whiteboard/Whiteboard.tsx,
primary variant; src/unnamed/part_005 is a near-identical variant of the
same handler).  The embedded parts are:

* the data model (Cursor, Shape records);
* the WebSocket message handler `onmessage` (lines 175-254), a pure
  transition on the client state (shapes list, cursors list) together
  with the list of messages it sends back over the channel (the handler
  sends none; the field makes that fact statable);
* `eraseShapesAtPosition` (lines 417-451);
* the reconnection bookkeeping: `connectWebSocket` attempt guard
  (lines 120-131), `onopen` counter reset (line 140), `onclose` retry
  timer (lines 156-169).

Numeric fields are modelled as integers with exact arithmetic.  The
embedded code paths use only addition, subtraction, multiplication and
comparison, except `Math.sqrt` in the eraser hit tests, which occurs
only in the pattern `Math.sqrt d <= r` with `d = dx*dx+dy*dy >= 0`;
this is embedded by the equivalent test `0 <= r ∧ d <= r*r`
(for real `d >= 0`: `sqrt d <= r ↔ 0 <= r ∧ d <= r^2`), so every
definition is executable and decidable.
-/

/-- Cursor record (`type Cursor`, Whiteboard.tsx lines 49-55).  The
`cursor_move` payload may additionally carry `remove: true` (checked at
line 187); an absent `remove` field is the value `false`. -/
structure Cursor where
  id : String
  x : ℤ
  y : ℤ
  color : String
  username : String
  remove : Bool
deriving DecidableEq, Repr

/-- The `type` discriminant of a shape (Whiteboard.tsx line 59). -/
inductive ShapeType where
  | rectangle
  | circle
  | star
  | image
  | eraser
deriving DecidableEq, Repr

/-- Shape record (`type Shape`, Whiteboard.tsx lines 57-70); optional
fields are `Option`. -/
structure Shape where
  id : String
  type : ShapeType
  x : ℤ
  y : ℤ
  width : ℤ
  height : ℤ
  radius : Option ℤ
  numPoints : Option Nat
  innerRadius : Option ℤ
  outerRadius : Option ℤ
  imageUrl : Option String
  userId : String
deriving DecidableEq, Repr

/-- A decoded inbound message, by its `type` tag (Whiteboard.tsx line 73).
`request_state` is a recognized tag with no case in the dispatch switch;
`unknown` stands for any other tag (no case either). -/
inductive ServerMsg where
  | cursor_move (payload : Cursor)
  | shape_add (payload : Shape)
  | shape_update (payload : Shape)
  | shape_delete (ids : List String) (userId : String)
  | clear (userId : String)
  | request_state
  | current_state (shapes : Option (List Shape)) (cursors : Option (List Cursor))
  | unknown (tag : String)
deriving DecidableEq, Repr

/-- An outbound message handed to `sendToWebSocket`.  Only the
constructor used by the embedded functions is modelled. -/
inductive ClientMsg where
  | shape_delete (ids : List String) (userId : String)
deriving DecidableEq, Repr

/-- The client's replicated board state: the `shapes` and `cursors`
React state arrays (Whiteboard.tsx lines 83, 88). -/
structure ClientState where
  shapes : List Shape
  cursors : List Cursor
deriving DecidableEq, Repr

/-- The `cursor_move` case of the message handler (Whiteboard.tsx lines
182-208): a payload whose id equals the local username is ignored;
otherwise `remove` drops that id, else the cursor is upserted
(filter out the id, append the new record). -/
def handleCursorMove (username : String) (cursors : List Cursor) (c : Cursor) :
    List Cursor :=
  if c.id != username then
    if c.remove then
      cursors.filter (fun k => k.id != c.id)
    else
      cursors.filter (fun k => k.id != c.id) ++ [c]
  else
    cursors

/-- The `onmessage` handler (Whiteboard.tsx lines 175-254) as a pure
transition: given the local username, the current client state and the
decoding outcome of the received frame (`none` = `JSON.parse` threw, the
`catch` swallows it), produce the next state and the messages sent back
over the channel.  The handler calls `sendToWebSocket` nowhere, so the
second component is `[]` on every branch; the `try`/`catch` and the
switch fall-through mean no branch throws, which the embedding renders
as totality of this function. -/
def onmessage (username : String) (st : ClientState) (raw : Option ServerMsg) :
    ClientState × List ClientMsg :=
  match raw with
  | none => (st, [])
  | some m =>
    match m with
    | ServerMsg.cursor_move c =>
        ({ st with cursors := handleCursorMove username st.cursors c }, [])
    | ServerMsg.shape_add s =>
        ({ st with shapes := st.shapes ++ [s] }, [])
    | ServerMsg.shape_update s =>
        ({ st with shapes := st.shapes.filter (fun t => t.id != s.id) ++ [s] }, [])
    | ServerMsg.shape_delete ids _uid =>
        ({ st with shapes := st.shapes.filter (fun t => !(ids.contains t.id)) }, [])
    | ServerMsg.clear _uid =>
        ({ st with shapes := [] }, [])
    | ServerMsg.current_state shs cs =>
        let st1 :=
          match shs with
          | none => st
          | some l => { st with shapes := l }
        let st2 :=
          match cs with
          | none => st1
          | some l =>
              { st1 with cursors :=
                  l.filter (fun c => c.id != username) ++
                    (st.cursors.find? (fun c => c.id == username)).toList }
        (st2, [])
    | ServerMsg.request_state => (st, [])
    | ServerMsg.unknown _ => (st, [])

/-- Fold of the message handler over a sequence of received frames. -/
def applyEvents (username : String) (st : ClientState)
    (evs : List (Option ServerMsg)) : ClientState :=
  evs.foldl (fun s e => (onmessage username s e).1) st

/-- The eraser hit test of `eraseShapesAtPosition` (Whiteboard.tsx lines
420-436): rectangles and images by axis-aligned bounding box, circles by
`Math.sqrt (dx*dx+dy*dy) <= radius`, stars by the same against
`outerRadius`, every other kind misses.  The square-root comparisons are
embedded squared (see the file header). -/
def shouldDelete (x y : ℤ) (s : Shape) : Bool :=
  match s.type with
  | ShapeType.rectangle | ShapeType.image =>
      decide (s.x ≤ x) && decide (x ≤ s.x + s.width) &&
        decide (s.y ≤ y) && decide (y ≤ s.y + s.height)
  | ShapeType.circle =>
      let dx := x - s.x
      let dy := y - s.y
      let r := s.radius.getD 0
      decide (0 ≤ r) && decide (dx * dx + dy * dy ≤ r * r)
  | ShapeType.star =>
      let dx := x - s.x
      let dy := y - s.y
      let r := s.outerRadius.getD 0
      decide (0 ≤ r) && decide (dx * dx + dy * dy ≤ r * r)
  | ShapeType.eraser => false

/-- `eraseShapesAtPosition` (Whiteboard.tsx lines 417-451): partition
the shape list by the hit test; when at least one shape is hit, keep the
misses and send one `shape_delete` carrying the hit ids and the local
username; otherwise change nothing and send nothing. -/
def eraseShapesAtPosition (username : String) (shapes : List Shape)
    (x y : ℤ) : List Shape × List ClientMsg :=
  let shapesToDelete := (shapes.filter (fun s => shouldDelete x y s)).map Shape.id
  let remainingShapes := shapes.filter (fun s => !(shouldDelete x y s))
  if shapesToDelete.isEmpty then
    (shapes, [])
  else
    (remainingShapes, [ClientMsg.shape_delete shapesToDelete username])

/-- `MAX_RECONNECT_ATTEMPTS` (Whiteboard.tsx line 95). -/
def MAX_RECONNECT_ATTEMPTS : Nat := 5

/-- The reconnection bookkeeping carried in refs: the consecutive
attempt counter (`reconnectAttemptsRef`) and the pending retry timer
(`reconnectTimeoutRef`), recorded with its delay in milliseconds. -/
structure ReconnectState where
  reconnectAttempts : Nat
  pendingRetryDelayMs : Option Nat
deriving DecidableEq, Repr

/-- The guard of `connectWebSocket` (Whiteboard.tsx lines 120-136):
whether a connection attempt (`new WebSocket`) is performed, given the
attempt counter and whether a token is in localStorage.  At or above
`MAX_RECONNECT_ATTEMPTS`, or without a token, the function returns
without attempting. -/
def connectWebSocket (rs : ReconnectState) (hasToken : Bool) : Bool :=
  if rs.reconnectAttempts ≥ MAX_RECONNECT_ATTEMPTS then
    false
  else if !hasToken then
    false
  else
    true

/-- The `onopen` effect on the reconnection state (Whiteboard.tsx line
140): the attempt counter resets to zero. -/
def wsOnOpen (rs : ReconnectState) : ReconnectState :=
  { rs with reconnectAttempts := 0 }

/-- The `onclose` handler (Whiteboard.tsx lines 156-169): the local
user's cursor is dropped from the cursors list, any pending retry timer
is cleared, and a new retry is scheduled after a fixed 3000 ms delay. -/
def wsOnClose (username : String) (cursors : List Cursor)
    (rs : ReconnectState) : List Cursor × ReconnectState :=
  (cursors.filter (fun c => c.id != username),
   { rs with pendingRetryDelayMs := some 3000 })

/-- Firing of the retry timer (Whiteboard.tsx lines 165-168): the
attempt counter is incremented, then `connectWebSocket` runs; the Bool
reports whether it performed a connection attempt. -/
def retryTimerFire (rs : ReconnectState) (hasToken : Bool) :
    ReconnectState × Bool :=
  let rs1 : ReconnectState :=
    { reconnectAttempts := rs.reconnectAttempts + 1, pendingRetryDelayMs := none }
  (rs1, connectWebSocket rs1 hasToken)

/-- Per-step side condition under which the duplicate-free-ids invariant
of the shape list is preserved: a `shape_add` must carry an id not
currently present, and a `current_state` shapes payload must itself have
pairwise-distinct ids; every other frame is unrestricted. -/
def stepSafe (st : ClientState) (e : Option ServerMsg) : Bool :=
  match e with
  | some (ServerMsg.shape_add s) => decide (s.id ∉ st.shapes.map Shape.id)
  | some (ServerMsg.current_state (some l) _) => decide ((l.map Shape.id).Nodup)
  | _ => true

/-- `stepSafe` along a whole event sequence, each step judged against
the state the previous steps produced. -/
def seqSafe (username : String) (st : ClientState) :
    List (Option ServerMsg) → Bool
  | [] => true
  | e :: rest =>
      stepSafe st e && seqSafe username (onmessage username st e).1 rest

/-- A concrete rectangle used in concrete instances. -/
def wRect : Shape :=
  { id := "r1", type := ShapeType.rectangle, x := 0, y := 0, width := 10,
    height := 10, radius := none, numPoints := none, innerRadius := none,
    outerRadius := none, imageUrl := none, userId := "u1" }

/-- A concrete circle used in concrete instances. -/
def wCirc : Shape :=
  { id := "k1", type := ShapeType.circle, x := 0, y := 0, width := 0,
    height := 0, radius := some 5, numPoints := none, innerRadius := none,
    outerRadius := none, imageUrl := none, userId := "u1" }

/-- A concrete shape with id "a", first version. -/
def wShapeA : Shape :=
  { id := "a", type := ShapeType.rectangle, x := 1, y := 1, width := 4,
    height := 4, radius := none, numPoints := none, innerRadius := none,
    outerRadius := none, imageUrl := none, userId := "u1" }

/-- A concrete shape with id "a", second version (different geometry). -/
def wShapeB : Shape :=
  { id := "a", type := ShapeType.rectangle, x := 9, y := 9, width := 2,
    height := 2, radius := none, numPoints := none, innerRadius := none,
    outerRadius := none, imageUrl := none, userId := "u1" }

/-- A concrete shape with id "b". -/
def wShapeC : Shape :=
  { id := "b", type := ShapeType.star, x := 50, y := 50, width := 0,
    height := 0, radius := none, numPoints := some 5, innerRadius := some 2,
    outerRadius := some 6, imageUrl := none, userId := "u2" }

/-- A concrete cursor owned by the local user "me". -/
def wSelfCursor : Cursor :=
  { id := "me", x := 1, y := 2, color := "#FF6B6B", username := "me",
    remove := false }

/-- A later cursor record for the same user "me" at another position. -/
def wSelfCursorMoved : Cursor :=
  { id := "me", x := 5, y := 6, color := "#FF6B6B", username := "me",
    remove := false }

/-- A concrete cursor owned by another user "bob". -/
def wOtherCursor : Cursor :=
  { id := "bob", x := 3, y := 4, color := "#4ECDC4", username := "bob",
    remove := false }

section helperLemmas

variable {α : Type}

/-- Filtering twice with the same Bool predicate does nothing new. -/
theorem filter_idem (p : α → Bool) (l : List α) :
    (l.filter p).filter p = l.filter p := by
  rw [List.filter_filter]
  exact List.filter_congr fun a _ => by cases h : p a <;> simp [h]

/-- Everything in a keep-different-key filter has a key different from the
reference key. -/
theorem key_ne_of_mem_filter {key : α → String} {i : String} {l : List α}
    {a : α} (h : a ∈ l.filter (fun t => key t != i)) : key a ≠ i := by
  have := (List.mem_filter.mp h).2
  simpa using this

/-- After removing a key and appending one record with that key, that
record is the unique one carrying the key. -/
theorem filter_eq_key_of_upsert (key : α → String) (l : List α) (b : α) :
    ((l.filter fun t => key t != key b) ++ [b]).filter
        (fun t => key t == key b) = [b] := by
  rw [List.filter_append, List.filter_filter]
  have h1 : (l.filter fun t => (key t == key b) && (key t != key b)) = [] := by
    apply List.filter_eq_nil_iff.mpr
    intro a _
    cases h : key a == key b <;> simp [h, bne]
  simp [h1]

/-- Upserting a record and then filtering its key away is the same as
just filtering the key away. -/
theorem filter_ne_of_upsert (key : α → String) (l : List α) (b : α) :
    ((l.filter fun t => key t != key b) ++ [b]).filter
        (fun t => key t != key b) = l.filter fun t => key t != key b := by
  rw [List.filter_append, filter_idem]
  simp [bne]

/-- `find?` on a list split around the first element satisfying the
predicate. -/
theorem find?_append_first {p : α → Bool} (l1 : List α) (c : α)
    (l2 : List α) (h1 : ∀ k ∈ l1, p k = false) (hc : p c = true) :
    (l1 ++ c :: l2).find? p = some c := by
  induction l1 with
  | nil => simpa using List.find?_cons_of_pos l2 hc
  | cons a l ih =>
      have ha : p a = false := h1 a (by simp)
      have : ((a :: l) ++ c :: l2).find? p = (l ++ c :: l2).find? p := by
        simpa using List.find?_cons_of_neg (l ++ c :: l2) (by simp [ha])
      rw [this]
      exact ih fun k hk => h1 k (by simp [hk])

/-- Upserting a record keeps the keys duplicate-free. -/
theorem nodup_upsert_key {key : α → String} {l : List α} (b : α)
    (h : (l.map key).Nodup) :
    (((l.filter fun t => key t != key b) ++ [b]).map key).Nodup := by
  rw [List.map_append]
  refine List.Nodup.append ?_ (List.nodup_singleton _) ?_
  · exact List.Nodup.sublist ((List.filter_sublist _).map key) h
  · intro a ha hb
    rw [List.map_singleton, List.mem_singleton] at hb
    obtain ⟨t, ht, hkey⟩ := List.mem_map.mp ha
    exact key_ne_of_mem_filter ht (hkey.trans hb)

/-- Appending a fresh element keeps a list duplicate-free. -/
theorem nodup_append_fresh {l : List String} {i : String} (h : l.Nodup)
    (hi : i ∉ l) : (l ++ [i]).Nodup := by
  refine List.Nodup.append h (List.nodup_singleton _) ?_
  intro a ha hb
  rw [List.mem_singleton] at hb
  exact hi (hb ▸ ha)

end helperLemmas

/-- One handler step preserves duplicate-freedom of the shape ids, under
the per-step side condition `stepSafe`. -/
theorem shapesIdsNodup_step (u : String) (st : ClientState)
    (e : Option ServerMsg) (h : (st.shapes.map Shape.id).Nodup)
    (hs : stepSafe st e = true) :
    (((onmessage u st e).1).shapes.map Shape.id).Nodup := by
  match e with
  | none => exact h
  | some (ServerMsg.cursor_move c) => exact h
  | some (ServerMsg.shape_add s) =>
      have hfresh : s.id ∉ st.shapes.map Shape.id := of_decide_eq_true hs
      simp only [onmessage]
      rw [List.map_append, List.map_singleton]
      exact nodup_append_fresh h hfresh
  | some (ServerMsg.shape_update s) =>
      simp only [onmessage]
      exact nodup_upsert_key s h
  | some (ServerMsg.shape_delete ids uid) =>
      simp only [onmessage]
      exact List.Nodup.sublist ((List.filter_sublist _).map Shape.id) h
  | some (ServerMsg.clear uid) =>
      simp only [onmessage]
      exact List.nodup_nil
  | some (ServerMsg.current_state none cs) =>
      cases cs <;> exact h
  | some (ServerMsg.current_state (some l) cs) =>
      have hl : (l.map Shape.id).Nodup := of_decide_eq_true hs
      cases cs <;> exact hl
  | some ServerMsg.request_state => exact h
  | some (ServerMsg.unknown tag) => exact h

/-- Duplicate-freedom of the shape ids is preserved along any safe event
sequence. -/
theorem shapesIdsNodup_applyEvents (u : String) (st : ClientState)
    (evs : List (Option ServerMsg)) (h : (st.shapes.map Shape.id).Nodup)
    (hs : seqSafe u st evs = true) :
    ((applyEvents u st evs).shapes.map Shape.id).Nodup := by
  induction evs generalizing st with
  | nil => exact h
  | cons e rest ih =>
      rw [seqSafe, Bool.and_eq_true] at hs
      exact ih _ (shapesIdsNodup_step u st e h hs.1) hs.2

/-- The eraser hit test never selects a shape of the `eraser` kind. -/
theorem shouldDelete_eraser (x y : ℤ) (s : Shape)
    (h : s.type = ShapeType.eraser) : shouldDelete x y s = false := by
  unfold shouldDelete
  rw [h]

/-- C3: applying shape_update A then shape_update B for the same id
leaves exactly B as the record stored for that id, and the whole
resulting state equals the state obtained by applying B alone — so the
outcome does not depend on A's content nor on the prior record for that
id, only on the order of application. -/
theorem c3_last_write_wins (u : String) (st : ClientState) (a b : Shape)
    (hid : a.id = b.id) :
    (onmessage u (onmessage u st (some (ServerMsg.shape_update a))).1
        (some (ServerMsg.shape_update b))).1
      = (onmessage u st (some (ServerMsg.shape_update b))).1 ∧
    ((onmessage u (onmessage u st (some (ServerMsg.shape_update a))).1
        (some (ServerMsg.shape_update b))).1.shapes.filter
        (fun t => t.id == b.id)) = [b] := by
  have hsingle : ([a].filter (fun t => t.id != b.id)) = [] := by
    simp [hid]
  have key :
      (onmessage u (onmessage u st (some (ServerMsg.shape_update a))).1
          (some (ServerMsg.shape_update b))).1
        = (onmessage u st (some (ServerMsg.shape_update b))).1 := by
    simp only [onmessage]
    rw [hid, List.filter_append, filter_idem, hsingle, List.append_nil]
  refine ⟨key, ?_⟩
  rw [key]
  simp only [onmessage]
  exact filter_eq_key_of_upsert Shape.id st.shapes b

/-- C3 witness at a concrete input. -/
theorem c3_last_write_wins_witness :
    wShapeA.id = wShapeB.id ∧
    ((onmessage "me" (onmessage "me" ⟨[], []⟩
        (some (ServerMsg.shape_update wShapeA))).1
        (some (ServerMsg.shape_update wShapeB))).1
      = (onmessage "me" ⟨[], []⟩ (some (ServerMsg.shape_update wShapeB))).1 ∧
    ((onmessage "me" (onmessage "me" ⟨[], []⟩
        (some (ServerMsg.shape_update wShapeA))).1
        (some (ServerMsg.shape_update wShapeB))).1.shapes.filter
        (fun t => t.id == wShapeB.id)) = [wShapeB]) :=
  ⟨by decide, c3_last_write_wins "me" ⟨[], []⟩ wShapeA wShapeB (by decide)⟩

/-- C5: a shape_delete whose ids hit nothing leaves the state unchanged,
clear on an empty shape list leaves the state unchanged, and a
shape_delete removes exactly the shapes whose id is listed — absent ids
are silently ignored and the surviving shapes keep their relative order
(the result is a sublist of the previous list).  No case produces an
error: the handler is a total function. -/
theorem c5_delete_clear_idempotent (u uid : String) (st : ClientState)
    (ids : List String) (cs : List Cursor) :
    ((∀ s ∈ st.shapes, s.id ∉ ids) →
      (onmessage u st (some (ServerMsg.shape_delete ids uid))).1 = st) ∧
    (onmessage u ⟨[], cs⟩ (some (ServerMsg.clear uid)) = (⟨[], cs⟩, [])) ∧
    ((onmessage u st (some (ServerMsg.shape_delete ids uid))).1.shapes.Sublist
      st.shapes) ∧
    (∀ s, s ∈ (onmessage u st (some (ServerMsg.shape_delete ids uid))).1.shapes
      ↔ s ∈ st.shapes ∧ s.id ∉ ids) := by
  refine ⟨?_, rfl, ?_, ?_⟩
  · intro h
    obtain ⟨shs, curs⟩ := st
    simp only [onmessage]
    congr 1
    exact List.filter_eq_self.mpr fun a ha => by
      simpa [List.contains] using h a ha
  · simp only [onmessage]
    exact List.filter_sublist _
  · intro s
    simp only [onmessage]
    simp [List.mem_filter, List.contains]

/-- C5 witness at a concrete input: deleting absent ids is a no-op,
clearing the empty list is a no-op, and a mixed delete keeps exactly the
survivors. -/
theorem c5_delete_clear_idempotent_witness :
    (∀ s ∈ ({ shapes := [wRect, wShapeC], cursors := [] } : ClientState).shapes,
      s.id ∉ ["zz"]) ∧
    (onmessage "me" { shapes := [wRect, wShapeC], cursors := [] }
        (some (ServerMsg.shape_delete ["zz"] "u2"))).1
      = { shapes := [wRect, wShapeC], cursors := [] } :=
  ⟨by decide,
    (c5_delete_clear_idempotent "me" "u2"
      { shapes := [wRect, wShapeC], cursors := [] } ["zz"] []).1 (by decide)⟩

/-- C7: a frame that fails to decode (invalid JSON, modelled as `none`)
or whose type tag is not one of the recognized message types leaves the
shapes and cursors state completely unchanged and sends nothing back;
the handler is a total function, so it never throws out of the message
callback and the connection stays open. -/
theorem c7_malformed_ignored (u : String) (st : ClientState) :
    onmessage u st none = (st, []) ∧
    ∀ tag : String, onmessage u st (some (ServerMsg.unknown tag)) = (st, []) :=
  ⟨rfl, fun _ => rfl⟩

/-- C8: closing the connection schedules exactly one retry after the
fixed 3000 ms delay; a firing retry timer increments the consecutive
attempt counter before attempting; a successful open resets the counter
to zero; and once the counter has reached MAX_RECONNECT_ATTEMPTS (5),
connectWebSocket performs no connection attempt. -/
theorem c8_reconnect_policy (u : String) (cursors : List Cursor)
    (rs : ReconnectState) (hasToken : Bool) :
    ((wsOnClose u cursors rs).2.pendingRetryDelayMs = some 3000) ∧
    ((retryTimerFire rs hasToken).1.reconnectAttempts
      = rs.reconnectAttempts + 1) ∧
    ((wsOnOpen rs).reconnectAttempts = 0) ∧
    (rs.reconnectAttempts ≥ MAX_RECONNECT_ATTEMPTS →
      connectWebSocket rs hasToken = false) := by
  refine ⟨rfl, rfl, rfl, ?_⟩
  intro h
  simp [connectWebSocket, h]

/-- C8 witness: at the cap (5 consecutive attempts) the guard refuses to
attempt a connection. -/
theorem c8_reconnect_policy_witness :
    (⟨5, none⟩ : ReconnectState).reconnectAttempts ≥ MAX_RECONNECT_ATTEMPTS ∧
    connectWebSocket ⟨5, none⟩ true = false :=
  ⟨by decide, (c8_reconnect_policy "me" [] ⟨5, none⟩ true).2.2.2 (by decide)⟩

/-- C1 counterexample: from the empty shape list, two shape_add
broadcasts carrying the same id leave two records with that id — the
second write is appended, not a replacement, so the at-most-one-record-
per-id invariant fails for the client message handler as claimed. -/
theorem c1_duplicate_add_counterexample :
    ((applyEvents "me" ⟨[], []⟩
        [some (ServerMsg.shape_add wShapeA),
         some (ServerMsg.shape_add wShapeA)]).shapes.map Shape.id)
      = ["a", "a"] ∧
    ¬ ((applyEvents "me" ⟨[], []⟩
        [some (ServerMsg.shape_add wShapeA),
         some (ServerMsg.shape_add wShapeA)]).shapes.map Shape.id).Nodup := by
  decide

/-- C1 amended: starting from an empty shape list, the resulting shape
list has at most one record per id for every event sequence in which
each shape_add carries an id not currently present and each
current_state shapes payload is itself duplicate-free (shape_update,
shape_delete, clear and all other events are unrestricted); and a
shape_update carrying an id already present replaces the earlier
record — afterwards exactly one record carries that id, namely the
update payload. -/
theorem c1_amended_unique_ids (u : String) (cs : List Cursor)
    (evs : List (Option ServerMsg)) (h : seqSafe u ⟨[], cs⟩ evs = true) :
    ((applyEvents u ⟨[], cs⟩ evs).shapes.map Shape.id).Nodup ∧
    (∀ st : ClientState, ∀ s : Shape,
      ((onmessage u st (some (ServerMsg.shape_update s))).1.shapes.filter
        (fun t => t.id == s.id)) = [s]) := by
  refine ⟨shapesIdsNodup_applyEvents u _ evs (by simp) h, ?_⟩
  intro st s
  simp only [onmessage]
  exact filter_eq_key_of_upsert Shape.id st.shapes s

/-- Concrete safe event sequence: a fresh add, an update of the same id,
then an add of a second fresh id. -/
def wEvs : List (Option ServerMsg) :=
  [some (ServerMsg.shape_add wShapeA),
   some (ServerMsg.shape_update wShapeB),
   some (ServerMsg.shape_add wShapeC)]

/-- C1 amended witness at a concrete safe sequence. -/
theorem c1_amended_unique_ids_witness :
    seqSafe "me" ⟨[], []⟩ wEvs = true ∧
    (((applyEvents "me" ⟨[], []⟩ wEvs).shapes.map Shape.id).Nodup ∧
     (∀ st : ClientState, ∀ s : Shape,
       ((onmessage "me" st (some (ServerMsg.shape_update s))).1.shapes.filter
         (fun t => t.id == s.id)) = [s])) :=
  ⟨by decide, c1_amended_unique_ids "me" [] wEvs (by decide)⟩

/-- C2 counterexample: the handler does filter by sender id for
cursor_move — the same echoed cursor_move whose payload id is "me" is
dropped by the client whose username is "me" but applied by the client
whose username is "bob", so an own echo is not processed like an event
from any other participant. -/
theorem c2_self_cursor_filtered_counterexample :
    wSelfCursorMoved.id = "me" ∧
    (onmessage "me" ⟨[], []⟩
        (some (ServerMsg.cursor_move wSelfCursorMoved))).1.cursors = [] ∧
    (onmessage "bob" ⟨[], []⟩
        (some (ServerMsg.cursor_move wSelfCursorMoved))).1.cursors
      = [wSelfCursorMoved] := by
  decide

/-- C2 amended: shape_add, shape_update, shape_delete and clear
broadcasts are applied with no filtering by sender id — the handler's
effect on them does not depend on the receiving client's identity at
all, so a client's own echoes are applied like anyone else's; but a
cursor_move whose payload id equals the receiving client's username is
ignored entirely (echo suppression for cursors only). -/
theorem c2_amended_echo (u v : String) (st : ClientState) :
    (∀ s, onmessage u st (some (ServerMsg.shape_add s))
        = onmessage v st (some (ServerMsg.shape_add s))) ∧
    (∀ s, onmessage u st (some (ServerMsg.shape_update s))
        = onmessage v st (some (ServerMsg.shape_update s))) ∧
    (∀ ids uid, onmessage u st (some (ServerMsg.shape_delete ids uid))
        = onmessage v st (some (ServerMsg.shape_delete ids uid))) ∧
    (∀ uid, onmessage u st (some (ServerMsg.clear uid))
        = onmessage v st (some (ServerMsg.clear uid))) ∧
    (∀ c : Cursor, c.id = u →
      onmessage u st (some (ServerMsg.cursor_move c)) = (st, [])) := by
  refine ⟨fun _ => rfl, fun _ => rfl, fun _ _ => rfl, fun _ => rfl, ?_⟩
  intro c hc
  simp [onmessage, handleCursorMove, hc]

/-- C2 amended witness: a concrete own-echo cursor_move is a no-op. -/
theorem c2_amended_echo_witness :
    wSelfCursorMoved.id = "me" ∧
    onmessage "me" ⟨[], [wOtherCursor]⟩
        (some (ServerMsg.cursor_move wSelfCursorMoved))
      = (⟨[], [wOtherCursor]⟩, []) :=
  ⟨by decide,
    (c2_amended_echo "me" "bob" ⟨[], [wOtherCursor]⟩).2.2.2.2
      wSelfCursorMoved (by decide)⟩

/-- C4 counterexample: with shapes [id "a", id "b"], a shape_update for
id "a" leaves the list [id "b", updated "a"] — the updated shape moved
from position 0 to the end of the list, so it does not keep the
position it had before the update. -/
theorem c4_update_moves_to_end_counterexample :
    wShapeB.id = wShapeA.id ∧
    (⟨[wShapeA, wShapeC], []⟩ : ClientState).shapes.map Shape.id
      = ["a", "b"] ∧
    (onmessage "me" ⟨[wShapeA, wShapeC], []⟩
        (some (ServerMsg.shape_update wShapeB))).1.shapes
      = [wShapeC, wShapeB] ∧
    (onmessage "me" ⟨[wShapeA, wShapeC], []⟩
        (some (ServerMsg.shape_update wShapeB))).1.shapes.map Shape.id
      ≠ ["a", "b"] := by
  decide

/-- C4 amended: a shape_update for an id already present removes the old
record and appends the update payload at the end of the list (it becomes
the last element), while the other shapes are exactly unchanged, keeping
their relative order: ordering is insertion/update order, and an update
moves the shape to the most recent position rather than keeping its old
one. -/
theorem c4_amended_update_position (u : String) (st : ClientState)
    (s : Shape) (_h : s.id ∈ st.shapes.map Shape.id) :
    ((onmessage u st (some (ServerMsg.shape_update s))).1.shapes.getLast?
      = some s) ∧
    ((onmessage u st (some (ServerMsg.shape_update s))).1.shapes.filter
        (fun t => t.id != s.id)
      = st.shapes.filter (fun t => t.id != s.id)) := by
  constructor
  · simp only [onmessage]
    exact List.getLast?_concat _
  · simp only [onmessage]
    exact filter_ne_of_upsert Shape.id st.shapes s

/-- C4 amended witness at a concrete two-shape list. -/
theorem c4_amended_update_position_witness :
    wShapeB.id ∈ (⟨[wShapeA, wShapeC], []⟩ : ClientState).shapes.map Shape.id ∧
    (((onmessage "me" ⟨[wShapeA, wShapeC], []⟩
        (some (ServerMsg.shape_update wShapeB))).1.shapes.getLast?
      = some wShapeB) ∧
     ((onmessage "me" ⟨[wShapeA, wShapeC], []⟩
        (some (ServerMsg.shape_update wShapeB))).1.shapes.filter
        (fun t => t.id != wShapeB.id)
      = (⟨[wShapeA, wShapeC], []⟩ : ClientState).shapes.filter
        (fun t => t.id != wShapeB.id))) :=
  ⟨by decide,
    c4_amended_update_position "me" ⟨[wShapeA, wShapeC], []⟩ wShapeB (by decide)⟩

/-- C6 counterexample: a cursor_move carrying the local user's own id,
which is present in the cursors list, does not overwrite that user's
previous cursor — the event is ignored and the old record survives
unchanged. -/
theorem c6_self_cursor_not_overwritten_counterexample :
    wSelfCursorMoved.id = wSelfCursor.id ∧
    wSelfCursor.id = "me" ∧
    wSelfCursor ≠ wSelfCursorMoved ∧
    (onmessage "me" ⟨[], [wSelfCursor]⟩
        (some (ServerMsg.cursor_move wSelfCursorMoved))).1.cursors
      = [wSelfCursor] := by
  decide

/-- C6 amended: handling any cursor_move preserves duplicate-freedom of
the cursor ids; a non-remove cursor_move for a user id OTHER than the
local user's upserts — afterwards the new record is the last element,
exactly one record carries that id, and all other users' cursors are
exactly unchanged; a remove cursor_move for an id other than the local
user's leaves that id absent while the remaining cursors are a sublist
of the previous ones containing every cursor of a different id; and a
cursor_move carrying the local user's own id is ignored entirely. -/
theorem c6_amended_cursor_uniqueness (u : String) (st : ClientState)
    (c : Cursor) :
    ((st.cursors.map Cursor.id).Nodup →
      (((onmessage u st (some (ServerMsg.cursor_move c))).1.cursors.map
        Cursor.id).Nodup)) ∧
    (c.id ≠ u → c.remove = false →
      ((onmessage u st (some (ServerMsg.cursor_move c))).1.cursors.getLast?
          = some c ∧
       (onmessage u st (some (ServerMsg.cursor_move c))).1.cursors.filter
          (fun k => k.id != c.id)
        = st.cursors.filter (fun k => k.id != c.id) ∧
       (onmessage u st (some (ServerMsg.cursor_move c))).1.cursors.filter
          (fun k => k.id == c.id)
        = [c])) ∧
    (c.id ≠ u → c.remove = true →
      ((∀ k ∈ (onmessage u st (some (ServerMsg.cursor_move c))).1.cursors,
          k.id ≠ c.id) ∧
       (onmessage u st (some (ServerMsg.cursor_move c))).1.cursors.Sublist
          st.cursors ∧
       (∀ k ∈ st.cursors, k.id ≠ c.id →
          k ∈ (onmessage u st (some (ServerMsg.cursor_move c))).1.cursors))) ∧
    (c.id = u →
      (onmessage u st (some (ServerMsg.cursor_move c))).1 = st) := by
  refine ⟨?_, ?_, ?_, ?_⟩
  · intro h
    simp only [onmessage, handleCursorMove]
    by_cases hcu : c.id = u
    · simp only [hcu, bne_self_eq_false, Bool.false_eq_true, if_false]
      exact h
    · have hb : (c.id != u) = true := by simp [hcu]
      rw [hb]
      simp only [if_true]
      cases hr : c.remove
      · simp only [Bool.false_eq_true, if_false]
        exact nodup_upsert_key c h
      · simp only [if_true]
        exact List.Nodup.sublist ((List.filter_sublist _).map Cursor.id) h
  · intro hcu hr
    simp only [onmessage, handleCursorMove]
    have hb : (c.id != u) = true := by simp [hcu]
    rw [hb, hr]
    simp only [if_true, Bool.false_eq_true, if_false]
    exact ⟨List.getLast?_concat _,
      filter_ne_of_upsert Cursor.id st.cursors c,
      filter_eq_key_of_upsert Cursor.id st.cursors c⟩
  · intro hcu hr
    simp only [onmessage, handleCursorMove]
    have hb : (c.id != u) = true := by simp [hcu]
    rw [hb, hr]
    simp only [if_true]
    refine ⟨?_, List.filter_sublist _, ?_⟩
    · intro k hk
      exact key_ne_of_mem_filter hk
    · intro k hk hkid
      exact List.mem_filter.mpr ⟨hk, by simp [hkid]⟩
  · intro hcu
    simp [onmessage, handleCursorMove, hcu]

/-- C6 amended witness: a concrete other-user cursor_move upserts. -/
theorem c6_amended_cursor_uniqueness_witness :
    wOtherCursor.id ≠ "me" ∧ wOtherCursor.remove = false ∧
    ((onmessage "me" ⟨[], [wSelfCursor]⟩
        (some (ServerMsg.cursor_move wOtherCursor))).1.cursors.getLast?
        = some wOtherCursor ∧
     (onmessage "me" ⟨[], [wSelfCursor]⟩
        (some (ServerMsg.cursor_move wOtherCursor))).1.cursors.filter
        (fun k => k.id != wOtherCursor.id)
      = (⟨[], [wSelfCursor]⟩ : ClientState).cursors.filter
        (fun k => k.id != wOtherCursor.id) ∧
     (onmessage "me" ⟨[], [wSelfCursor]⟩
        (some (ServerMsg.cursor_move wOtherCursor))).1.cursors.filter
        (fun k => k.id == wOtherCursor.id)
      = [wOtherCursor]) :=
  ⟨by decide, by decide,
    (c6_amended_cursor_uniqueness "me" ⟨[], [wSelfCursor]⟩ wOtherCursor).2.1
      (by decide) (by decide)⟩

/-- C9: eraseShapesAtPosition sends a shape_delete if and only if some
shape in the list passes the geometric hit test (rectangles and images
by bounding box, circles by distance at most radius, stars by distance
at most outer radius); when it sends, the payload carries exactly the
hit shapes' ids and the local username; the surviving list consists of
exactly the non-hit shapes in their original relative order; and a shape
of any other kind (the eraser kind) is never deleted. -/
theorem c9_erase_hit_test (u : String) (shapes : List Shape) (x y : ℤ) :
    ((eraseShapesAtPosition u shapes x y).2 ≠ []
      ↔ ∃ s ∈ shapes, shouldDelete x y s = true) ∧
    ((eraseShapesAtPosition u shapes x y).2 ≠ [] →
      (eraseShapesAtPosition u shapes x y).2
        = [ClientMsg.shape_delete
            ((shapes.filter (fun s => shouldDelete x y s)).map Shape.id) u]) ∧
    ((eraseShapesAtPosition u shapes x y).1.Sublist shapes) ∧
    (∀ s, s ∈ (eraseShapesAtPosition u shapes x y).1
      ↔ s ∈ shapes ∧ shouldDelete x y s = false) ∧
    (∀ s ∈ shapes, s.type = ShapeType.eraser →
      s ∈ (eraseShapesAtPosition u shapes x y).1) := by
  have hmem : ∀ s, s ∈ shapes.filter (fun t => !(shouldDelete x y t))
      ↔ s ∈ shapes ∧ shouldDelete x y s = false := by
    intro s
    rw [List.mem_filter]
    constructor
    · rintro ⟨h1, h2⟩
      exact ⟨h1, by simpa using h2⟩
    · rintro ⟨h1, h2⟩
      exact ⟨h1, by simp [h2]⟩
  by_cases hE : ((shapes.filter (fun s => shouldDelete x y s)).map
      Shape.id).isEmpty = true
  · have hnil : shapes.filter (fun s => shouldDelete x y s) = [] := by
      rcases List.isEmpty_iff.mp hE with h
      exact (List.map_eq_nil_iff).mp h
    have hnohit : ∀ s ∈ shapes, shouldDelete x y s = false := by
      intro s hs
      by_contra hcon
      have htrue : shouldDelete x y s = true := by
        cases h : shouldDelete x y s
        · exact absurd h hcon
        · rfl
      exact absurd (List.mem_filter.mpr ⟨hs, htrue⟩) (by simp [hnil])
    have hres : eraseShapesAtPosition u shapes x y = (shapes, []) := by
      unfold eraseShapesAtPosition
      simp [hE]
    rw [hres]
    refine ⟨?_, ?_, List.Sublist.refl _, ?_, ?_⟩
    · simp only [ne_eq, not_true_eq_false, false_iff]
      rintro ⟨s, hs, hhit⟩
      exact absurd hhit (by simp [hnohit s hs])
    · intro h
      exact absurd rfl h
    · intro s
      constructor
      · intro h
        exact ⟨h, hnohit s h⟩
      · intro h
        exact h.1
    · intro s hs _
      exact hs
  · have hres : eraseShapesAtPosition u shapes x y
        = (shapes.filter (fun s => !(shouldDelete x y s)),
           [ClientMsg.shape_delete
             ((shapes.filter (fun s => shouldDelete x y s)).map Shape.id) u]) := by
      unfold eraseShapesAtPosition
      simp [hE]
    rw [hres]
    refine ⟨?_, fun _ => rfl, List.filter_sublist _, hmem, ?_⟩
    · simp only [ne_eq, reduceCtorEq, not_false_eq_true, true_iff]
      have hne : shapes.filter (fun s => shouldDelete x y s) ≠ [] := by
        intro hcon
        exact absurd
          (by simp [hcon] : ((shapes.filter
            (fun s => shouldDelete x y s)).map Shape.id).isEmpty = true) hE
      rcases List.exists_mem_of_ne_nil _ hne with ⟨s, hs⟩
      rcases List.mem_filter.mp hs with ⟨h1, h2⟩
      exact ⟨s, h1, h2⟩
    · intro s hs htype
      exact (hmem s).mpr ⟨hs, shouldDelete_eraser x y s htype⟩

/-- C9 witness: at position (3,4), a 10 by 10 rectangle at the origin is
hit while a faraway star is not; one shape_delete with exactly the hit
id is sent. -/
theorem c9_erase_hit_test_witness :
    ((eraseShapesAtPosition "me" [wRect, wShapeC] 3 4).2 ≠ []) ∧
    ((eraseShapesAtPosition "me" [wRect, wShapeC] 3 4).2
      = [ClientMsg.shape_delete
          (([wRect, wShapeC].filter (fun s => shouldDelete 3 4 s)).map
            Shape.id) "me"]) :=
  ⟨by decide, (c9_erase_hit_test "me" [wRect, wShapeC] 3 4).2.1 (by decide)⟩

/-- C10: processing a current_state whose payload has no cursors field
leaves the cursors list unchanged; when the payload carries a cursors
array, the result is the payload's cursors with every entry matching the
local user id removed, followed by the local user's previous cursor
entry, unmodified, when one existed before the message (the first such
entry) — the local user's own cursor is never removed or altered by
current_state. -/
theorem c10_current_state_preserves_own_cursor (u : String)
    (st : ClientState) (shs : Option (List Shape)) (cs : List Cursor) :
    ((onmessage u st (some (ServerMsg.current_state shs none))).1.cursors
      = st.cursors) ∧
    ((∀ k ∈ st.cursors, k.id ≠ u) →
      (onmessage u st (some (ServerMsg.current_state shs (some cs)))).1.cursors
        = cs.filter (fun k => k.id != u)) ∧
    (∀ l1 (c : Cursor) l2, st.cursors = l1 ++ c :: l2 → c.id = u →
      (∀ k ∈ l1, k.id ≠ u) →
      (onmessage u st (some (ServerMsg.current_state shs (some cs)))).1.cursors
        = cs.filter (fun k => k.id != u) ++ [c]) := by
  refine ⟨?_, ?_, ?_⟩
  · cases shs <;> rfl
  · intro h
    have hf : st.cursors.find? (fun k => k.id == u) = none :=
      List.find?_eq_none.mpr fun k hk => by simp [h k hk]
    cases shs <;> simp [onmessage, hf]
  · intro l1 c l2 heq hcid h1
    have hf : st.cursors.find? (fun k => k.id == u) = some c := by
      rw [heq]
      exact find?_append_first l1 c l2 (fun k hk => by simp [h1 k hk])
        (by simp [hcid])
    cases shs <;> simp [onmessage, hf]

/-- C10 witness: with a previous own cursor present and a payload
containing a stale own entry, the stale entry is dropped and the
previous own cursor is kept unmodified at the end. -/
theorem c10_current_state_preserves_own_cursor_witness :
    ((⟨[], [wSelfCursor, wOtherCursor]⟩ : ClientState).cursors
      = [] ++ wSelfCursor :: [wOtherCursor]) ∧
    (wSelfCursor.id = "me") ∧
    (∀ k ∈ ([] : List Cursor), k.id ≠ "me") ∧
    ((onmessage "me" ⟨[], [wSelfCursor, wOtherCursor]⟩
        (some (ServerMsg.current_state none
          (some [wSelfCursorMoved, wOtherCursor])))).1.cursors
      = [wSelfCursorMoved, wOtherCursor].filter (fun k => k.id != "me")
        ++ [wSelfCursor]) :=
  ⟨rfl, rfl, by simp,
    (c10_current_state_preserves_own_cursor "me"
        ⟨[], [wSelfCursor, wOtherCursor]⟩ none
        [wSelfCursorMoved, wOtherCursor]).2.2
      [] wSelfCursor [wOtherCursor] rfl rfl (by simp)⟩
